import Mathlib

set_option maxRecDepth 10000

/-!
# Verification of the nobledao title program

Shallow embedding of the on-ledger feudal-hierarchy registry: the record
schema (`HouseData`, `TitleData`) with its borsh-style binary encoding
(`src/program/src/state.rs`), and the instruction processor for the
`CreateHouse` and `CreateTitle` instructions
(`src/program/src/processor.rs`).

Machine integers are modelled as `Nat` (with explicit range side
conditions where overflow matters) and `Int` for the signed `i32` fields.
A Solana `Pubkey` is a list of 32 bytes; Rust `String` fields are
modelled as their UTF-8 byte lists, and borsh serializes them as a
4-byte little-endian length prefix followed by the raw bytes.

The program-derived-address search (`Pubkey::find_program_address` in the
Solana SDK) is an external hash-based primitive; the processor is
parameterized over it, and all theorems about the processor's
re-derive-and-compare logic hold for an arbitrary derivation function.
-/

namespace NobleDao

/-- A Solana public key, modelled as its 32 raw bytes. -/
abbrev Pubkey := List Nat

/-- The all-zero pubkey: the "no liege / root" sentinel
(`Pubkey::new(&[0; 32])`). -/

def zeroPubkey : Pubkey := List.replicate 32 0

/-- The system program's identity (`system_program::id()`), which is the
all-zero address on Solana. -/

def systemProgramId : Pubkey := List.replicate 32 0

/-! ## Borsh-style little-endian byte codecs -/

/-- Serialize a `u8` (one byte). -/
def u8le (n : Nat) : List Nat := [n]

/-- Serialize a `u16` little-endian (two bytes). -/
def u16le (n : Nat) : List Nat := [n % 256, n / 256]

/-- Serialize a `u32` little-endian (four bytes). -/
def u32le (n : Nat) : List Nat := u16le (n % 2 ^ 16) ++ u16le (n / 2 ^ 16)

/-- Serialize a `u64` little-endian (eight bytes). -/
def u64le (n : Nat) : List Nat := u32le (n % 2 ^ 32) ++ u32le (n / 2 ^ 32)

/-- Serialize an `i32` little-endian (four bytes, two's complement). -/
def i32le (i : Int) : List Nat := u32le ((i % (2 ^ 32 : Int)).toNat)

/-- Serialize a Rust `String` (borsh): `u32` byte-length prefix followed by
the UTF-8 bytes. -/

def strle (s : List Nat) : List Nat := u32le s.length ++ s

/-- Serialize a `Pubkey` (32 raw bytes, no prefix). -/
def pkle (p : Pubkey) : List Nat := p

/-- Serialize a `Vec<Pubkey>` (borsh): `u32` count prefix followed by the
elements. -/

def vecPkle (v : List Pubkey) : List Nat :=
  u32le v.length ++ v.foldr (fun p acc => pkle p ++ acc) []

/-- Read one byte. -/
def readU8 : List Nat → Option (Nat × List Nat)
  | b0 :: r => some (b0, r)
  | _ => none

/-- Read a `u16` little-endian. -/
def readU16 : List Nat → Option (Nat × List Nat)
  | b0 :: b1 :: r => some (b0 + 256 * b1, r)
  | _ => none

/-- Read a `u32` little-endian. -/
def readU32 (l : List Nat) : Option (Nat × List Nat) := do
  let (lo, r) ← readU16 l
  let (hi, r') ← readU16 r
  pure (lo + 2 ^ 16 * hi, r')

/-- Read a `u64` little-endian. -/
def readU64 (l : List Nat) : Option (Nat × List Nat) := do
  let (lo, r) ← readU32 l
  let (hi, r') ← readU32 r
  pure (lo + 2 ^ 32 * hi, r')

/-- Read an `i32` little-endian (two's complement). -/
def readI32 (l : List Nat) : Option (Int × List Nat) := do
  let (n, r) ← readU32 l
  pure (if n < 2 ^ 31 then (n : Int) else (n : Int) - 2 ^ 32, r)

/-- Read exactly `k` raw bytes. -/
def readBytes (k : Nat) (l : List Nat) : Option (List Nat × List Nat) :=
  if k ≤ l.length then some (l.take k, l.drop k) else none

/-- Read a borsh `String` (length-prefixed bytes). -/
def readStr (l : List Nat) : Option (List Nat × List Nat) := do
  let (n, r) ← readU32 l
  readBytes n r

/-- Read a `Pubkey` (32 raw bytes). -/
def readPk (l : List Nat) : Option (Pubkey × List Nat) := readBytes 32 l

/-- Read `k` consecutive `Pubkey`s. -/
def readPks : Nat → List Nat → Option (List Pubkey × List Nat)
  | 0, l => some ([], l)
  | k + 1, l => do
    let (p, r) ← readPk l
    let (ps, r') ← readPks k r
    pure (p :: ps, r')

/-- Read a borsh `Vec<Pubkey>` (count-prefixed). -/
def readVecPk (l : List Nat) : Option (List Pubkey × List Nat) := do
  let (n, r) ← readU32 l
  readPks n r

/-! ## Record schema (`src/program/src/state.rs`) -/

/-- A user's House record (`state.rs::HouseData`). Text fields are the raw
UTF-8 bytes of the Rust `String`s. -/

structure HouseData where
  version : Nat
  governance_token_supply : Nat
  coat_of_arms : List Nat
  display_name : List Nat
  prestige : Int
  virtue : Int
  deriving Repr, DecidableEq

/-- Version to fill in on new created house accounts
(`HouseData::CURRENT_VERSION`). -/

def HouseData.CURRENT_VERSION : Nat := 1

/-- Declared serialized size of `HouseData`
(`HouseData::SIZE = 2 + 2 + 128 + 128 + 4 + 4`). -/

def HouseData.SIZE : Nat := 2 + 2 + 128 + 128 + 4 + 4

/-- A noble Title record (`state.rs::TitleData`). -/
structure TitleData where
  version : Nat
  lifecycle_state : Nat
  rank : Nat
  kind : Nat
  required_stake_lamports : Nat
  sale_price_lamports : Nat
  coat_of_arms : List Nat
  display_name : List Nat
  holder_house_address : Pubkey
  stake_address : Pubkey
  liege_address : Pubkey
  liege_vassal_index : Nat
  vassal_addresses : List Pubkey
  deriving Repr, DecidableEq

/-- Maximum number of vassals per title (`state.rs::MAX_VASSALS`). -/
def MAX_VASSALS : Nat := 64

/-- Version to fill in on new created title accounts
(`TitleData::CURRENT_VERSION`). -/

def TitleData.CURRENT_VERSION : Nat := 1

/-- Lifecycle state of a created but never-sold title
(`TitleData::INACTIVE_STATE`). -/

def TitleData.INACTIVE_STATE : Nat := 1

/-- Declared maximum serialized size of `TitleData` (`TitleData::SIZE`). -/
def TitleData.SIZE : Nat :=
  1 + 1 + 1 + 1 + 8 + 8 + 128 + 128 + 32 + 32 + 32 + 1 + 4 + 32 * MAX_VASSALS

/-- Borsh serialization of a `HouseData` record: fields in declaration
order, `String`s with a `u32` length prefix. -/

def serializeHouse (h : HouseData) : List Nat :=
  u16le h.version ++ u16le h.governance_token_supply ++
    strle h.coat_of_arms ++ strle h.display_name ++
    i32le h.prestige ++ i32le h.virtue

/-- Borsh deserialization of a `HouseData` record, returning the record and
the unread remainder of the input. -/

def deserializeHouse (l : List Nat) : Option (HouseData × List Nat) := do
  let (version, l) ← readU16 l
  let (supply, l) ← readU16 l
  let (coa, l) ← readStr l
  let (name, l) ← readStr l
  let (prestige, l) ← readI32 l
  let (virtue, l) ← readI32 l
  pure (⟨version, supply, coa, name, prestige, virtue⟩, l)

/-- Borsh serialization of a `TitleData` record. -/
def serializeTitle (t : TitleData) : List Nat :=
  u8le t.version ++ u8le t.lifecycle_state ++ u8le t.rank ++ u8le t.kind ++
    u64le t.required_stake_lamports ++ u64le t.sale_price_lamports ++
    strle t.coat_of_arms ++ strle t.display_name ++
    pkle t.holder_house_address ++ pkle t.stake_address ++
    pkle t.liege_address ++ u8le t.liege_vassal_index ++
    vecPkle t.vassal_addresses

/-- First half of the borsh `TitleData` parser: the six numeric fields
and the coat-of-arms text, in declaration order. (The parser is split in
two to keep the generated code small.) -/
def deserializeTitleHead (l : List Nat) :
    Option ((Nat × Nat × Nat × Nat × Nat × Nat × List Nat) × List Nat) :=
  (readU8 l).bind fun v =>
  (readU8 v.2).bind fun st =>
  (readU8 st.2).bind fun rk =>
  (readU8 rk.2).bind fun kd =>
  (readU64 kd.2).bind fun stk =>
  (readU64 stk.2).bind fun pr =>
  (readStr pr.2).bind fun coa =>
  some ((v.1, st.1, rk.1, kd.1, stk.1, pr.1, coa.1), coa.2)

/-- Second half of the borsh `TitleData` parser: display name, the three
addresses, the vassal index and the vassal vector. -/
def deserializeTitleTail (l : List Nat) :
    Option ((List Nat × Pubkey × Pubkey × Pubkey × Nat × List Pubkey) ×
      List Nat) :=
  (readStr l).bind fun nm =>
  (readPk nm.2).bind fun hh =>
  (readPk hh.2).bind fun sa =>
  (readPk sa.2).bind fun lg =>
  (readU8 lg.2).bind fun ix =>
  (readVecPk ix.2).bind fun vs =>
  some ((nm.1, hh.1, sa.1, lg.1, ix.1, vs.1), vs.2)

/-- Borsh deserialization of a `TitleData` record, returning the record and
the unread remainder of the input (borsh's `deserialize` tolerates
trailing bytes). Fields are read in declaration order. -/
def deserializeTitle (l : List Nat) : Option (TitleData × List Nat) :=
  (deserializeTitleHead l).bind fun a =>
  (deserializeTitleTail a.2).bind fun b =>
  some (⟨a.1.1, a.1.2.1, a.1.2.2.1, a.1.2.2.2.1, a.1.2.2.2.2.1,
    a.1.2.2.2.2.2.1, a.1.2.2.2.2.2.2, b.1.1, b.1.2.1, b.1.2.2.1,
    b.1.2.2.2.1, b.1.2.2.2.2.1, b.1.2.2.2.2.2⟩, b.2)

/-- A `HouseData` value that a well-typed Rust `HouseData` can denote:
all machine-integer fields in range. (String contents are unconstrained
byte lists here; borsh round-trips them regardless.) -/

def ValidHouse (h : HouseData) : Prop :=
  h.version < 2 ^ 16 ∧ h.governance_token_supply < 2 ^ 16 ∧
    -(2 ^ 31) ≤ h.prestige ∧ h.prestige < 2 ^ 31 ∧
    -(2 ^ 31) ≤ h.virtue ∧ h.virtue < 2 ^ 31

instance : DecidablePred ValidHouse := fun h => by
  unfold ValidHouse; infer_instance

/-- A `TitleData` value that a well-typed Rust `TitleData` can denote:
`Pubkey` fields are 32 bytes and machine integers are in range. -/

def ValidTitle (t : TitleData) : Prop :=
  t.holder_house_address.length = 32 ∧ t.stake_address.length = 32 ∧
    t.liege_address.length = 32 ∧ (∀ p ∈ t.vassal_addresses, p.length = 32)

instance : DecidablePred ValidTitle := fun t => by
  unfold ValidTitle; infer_instance

/-! ## Round-trip and length facts for the record codecs -/

/-! ## Instruction processor (`src/program/src/processor.rs`)

The processor is modelled as a function from the instruction's accounts
and arguments to the ordered list of ledger effects it performs
(account creations and account-data writes) together with an optional
error (`none` = `Ok(())`). External collaborators are explicit
parameters: the SDK's `find_program_address` search (`Fpa`) and the
outcome of the `invoke_signed(system_instruction::create_account(..))`
call (`allocOk`; the call fails when the target address already exists
or the funder cannot pay). -/

/-- A Solana `AccountInfo` as the processor consumes it: key, signer and
writability flags, owning program, and raw data bytes. -/

structure AccountInfo where
  key : Pubkey
  is_signer : Bool
  is_writable : Bool
  owner : Pubkey
  data : List Nat
  deriving Repr, DecidableEq

/-- The errors the processor can surface. `Custom 0` is
`TitleError::IncorrectAuthority as u32` (the program's own authority
error); `BorshIoError` is a failed borsh write into a too-small account
buffer; `AllocFailed` is a failed `create_account` invocation; `Panic`
is the out-of-bounds slice copy in `process_create_house_account`. -/

inductive ProgErr where
  | InvalidInstructionData
  | NotEnoughAccountKeys
  | MissingRequiredSignature
  | InvalidArgument
  | InvalidSeeds
  | InvalidAccountData
  | IncorrectProgramId
  | BorshIoError
  | Custom (code : Nat)
  | AllocFailed
  | Panic
  deriving Repr, DecidableEq

/-- `RecordError::IncorrectAuthority`, converted to
`ProgramError::Custom(0)` by the `From` impl in `error.rs`. -/

def incorrectAuthorityErr : ProgErr := ProgErr.Custom 0

/-- A ledger effect performed by the processor, in program order. -/
inductive Event where
  | createAccount (key : Pubkey) (space : Nat)
  | writeAccount (key : Pubkey) (data : List Nat)
  deriving Repr, DecidableEq

/-- The SDK's `Pubkey::find_program_address`: maps a seed list and a
program id to a derived (off-curve) address and a bump byte. The
processor only re-runs it and compares; every theorem below holds for an
arbitrary such function. -/

abbrev Fpa := List (List Nat) → Pubkey → Pubkey × Nat

/-- The `HouseData` record written by `process_create_house_account`
(processor.rs lines 117-124). -/

def mkHouseData (coa name : List Nat) : HouseData :=
  { version := HouseData.CURRENT_VERSION, governance_token_supply := 1,
    coat_of_arms := coa, display_name := name, prestige := 0, virtue := 0 }

/-- The `TitleData` record written by `process_create_title_account`
(processor.rs lines 268-282): version/state fixed, sale price initialized
to the required stake, holder = the house account's key, liege = the
liege title account's key, empty vassal list. -/

def mkNewTitleData (rank kind stake : Nat) (coa name : List Nat)
    (houseKey liegeKey : Pubkey) (idx : Nat) : TitleData :=
  { version := TitleData.CURRENT_VERSION,
    lifecycle_state := TitleData.INACTIVE_STATE,
    rank := rank, kind := kind,
    required_stake_lamports := stake, sale_price_lamports := stake,
    coat_of_arms := coa, display_name := name,
    holder_house_address := houseKey, stake_address := zeroPubkey,
    liege_address := liegeKey, liege_vassal_index := idx,
    vassal_addresses := [] }

/-- `process_create_house_account` (processor.rs lines 64-130): checks,
then allocation of `HouseData::SIZE` bytes at the derived house address,
then the serialized record copied into the front of the buffer
(`dst[..data.len()]`, which panics when the record outgrows the buffer). -/

def processCreateHouse (fpa : Fpa) (program_id : Pubkey)
    (accounts : List AccountInfo) (coat_of_arms display_name : List Nat)
    (allocOk : Bool) : List Event × Option ProgErr :=
  match accounts with
  | wallet :: house :: _sys :: _rest =>
    if wallet.is_signer = false then ([], some .MissingRequiredSignature)
    else if wallet.is_writable = false ∨ house.is_writable = false then
      ([], some .InvalidArgument)
    else if wallet.owner ≠ systemProgramId then ([], some .IncorrectProgramId)
    else
      let house_address := (fpa [wallet.key] program_id).1
      if house_address ≠ house.key then ([], some .InvalidSeeds)
      else if allocOk = false then ([], some .AllocFailed)
      else
        let data := serializeHouse (mkHouseData coat_of_arms display_name)
        if data.length ≤ HouseData.SIZE then
          ([.createAccount house.key HouseData.SIZE,
            .writeAccount house.key data], none)
        else ([.createAccount house.key HouseData.SIZE], some .Panic)
  | _ => ([], some .NotEnoughAccountKeys)

/-- The tail of `process_create_title_account` after the optional liege
update (processor.rs lines 246-286): allocate `TitleData::SIZE` bytes at
the new title address, then borsh-serialize the new record into the
fresh buffer. `evs` is the effect prefix already performed. -/

def createTitleFinish (houseKey newTitleKey liegeKey : Pubkey)
    (rank kind stake : Nat) (coa name : List Nat) (idx : Nat)
    (allocOk : Bool) (evs : List Event) : List Event × Option ProgErr :=
  if allocOk = false then (evs, some .AllocFailed)
  else
    let td := mkNewTitleData rank kind stake coa name houseKey liegeKey idx
    let data := serializeTitle td
    if data.length ≤ TitleData.SIZE then
      (evs ++ [.createAccount newTitleKey TitleData.SIZE,
        .writeAccount newTitleKey data], none)
    else
      (evs ++ [.createAccount newTitleKey TitleData.SIZE], some .BorshIoError)

/-- The `rank > 1` branch of `process_create_title_account`
(processor.rs lines 214-244, then 246-286): deserialize the liege title,
check the caller's house holds it, check the vassal index is the current
vassal count, check the new rank is strictly greater, then serialize the
extended vassal list back into the liege account *before* allocating the
new title. `ta` is the derived new-title address. -/

def createTitleLiegeBranch
    (house newTitle liegeAcc : AccountInfo) (rank kind stake : Nat)
    (coa name : List Nat) (idx : Nat) (ta : Pubkey) (allocOk : Bool) :
    List Event × Option ProgErr :=
  match deserializeTitle liegeAcc.data with
  | none => ([], some .InvalidAccountData)
  | some (td, _) =>
    if td.holder_house_address ≠ house.key then
      ([], some incorrectAuthorityErr)
    else if td.vassal_addresses.length ≠ idx then ([], some .InvalidArgument)
    else if rank ≤ td.rank then ([], some .InvalidArgument)
    else
      let td2 :=
        { td with vassal_addresses := td.vassal_addresses ++ [ta] }
      let ldata := serializeTitle td2
      if ldata.length ≤ liegeAcc.data.length then
        createTitleFinish house.key newTitle.key liegeAcc.key rank kind
          stake coa name idx allocOk [.writeAccount liegeAcc.key ldata]
      else ([], some .BorshIoError)

/-- `process_create_title_account` from the house-address derivation on
(processor.rs lines 185-286), reached once the signer/writability/
system-owner/rank/kind/liege-sentinel checks have all passed. -/

def createTitleAfterChecks (fpa : Fpa) (program_id : Pubkey)
    (house newTitle liegeAcc : AccountInfo) (walletKey : Pubkey)
    (rank kind stake : Nat) (coa name : List Nat) (idx : Nat)
    (allocOk : Bool) : List Event × Option ProgErr :=
  let house_address := (fpa [walletKey] program_id).1
  if house_address ≠ house.key then ([], some .InvalidSeeds)
  else
    let title_address :=
      (fpa [liegeAcc.key, List.replicate 32 idx] program_id).1
    if title_address ≠ newTitle.key then ([], some .InvalidSeeds)
    else if rank > 1 then
      createTitleLiegeBranch house newTitle liegeAcc rank kind stake coa
        name idx title_address allocOk
    else
      createTitleFinish house.key newTitle.key liegeAcc.key rank kind stake
        coa name idx allocOk []

/-- `process_create_title_account` (processor.rs lines 133-286): the
validation cascade in source order, then `createTitleAfterChecks`. -/

def processCreateTitle (fpa : Fpa) (program_id : Pubkey)
    (accounts : List AccountInfo) (rank kind stake : Nat)
    (coat_of_arms display_name : List Nat) (liege_address : Pubkey)
    (liege_vassal_index : Nat) (allocOk : Bool) :
    List Event × Option ProgErr :=
  match accounts with
  | wallet :: house :: newTitle :: liegeAcc :: _sys :: _rest =>
    let empty_liege := liege_address = zeroPubkey
    if wallet.is_signer = false then ([], some .MissingRequiredSignature)
    else if wallet.is_writable = false ∨ newTitle.is_writable = false ∨
        (liegeAcc.is_writable = false ∧ ¬empty_liege) then
      ([], some .InvalidArgument)
    else if wallet.owner ≠ systemProgramId then ([], some .IncorrectProgramId)
    else if rank < 1 ∨ rank > 8 then ([], some .InvalidArgument)
    else if kind < 1 ∨ kind > 2 then ([], some .InvalidArgument)
    else if rank = 1 ∧ ¬empty_liege then ([], some .InvalidArgument)
    else if rank > 1 ∧ empty_liege then ([], some .InvalidArgument)
    else
      createTitleAfterChecks fpa program_id house newTitle liegeAcc
        wallet.key rank kind stake coat_of_arms display_name
        liege_vassal_index allocOk
  | _ => ([], some .NotEnoughAccountKeys)

/-! ## C1: address re-derivation against substituted accounts -/

/-! ## C4: the rank-1 / zero-liege sentinel check -/

/-! ## C6: authority check on the liege's holder -/

/-! ## C3: the vassal-index-equals-count rule -/

/-! ## C7: strict rank increase over the liege -/

/-! ## Outcome shapes of CreateTitle (write discipline) -/

/-- Whether an error arises from an explicit validation check (account
shape, flags, owner, arguments, derivations, deserialize, authority), as
opposed to a failed allocation, a failed borsh write, or a panic. -/

def ProgErr.isValidation : ProgErr → Bool
  | .AllocFailed => false
  | .BorshIoError => false
  | .Panic => false
  | _ => true

/-! ## Concrete test fixtures

A concrete instantiation of the external derivation function and concrete
accounts, used to evaluate the processor on explicit inputs. `fpaTest`
is an arbitrary computable stand-in for the SDK's derivation search that
returns a 32-byte address determined by the seeds. -/

/-- A concrete derivation function for evaluation: 30 zero bytes followed
by the seed count and a byte mixing the seed contents, bump 255. -/
def fpaTest : Fpa := fun seeds _ =>
  (List.replicate 30 0 ++ [seeds.length % 256,
    (seeds.flatten.sum + seeds.flatten.length) % 256], 255)

/-- A concrete program id. -/
def pidTest : Pubkey := List.replicate 32 1

/-- A concrete wallet key. -/
def walletKeyT : Pubkey := List.replicate 32 7

/-- The house address `fpaTest` derives for `walletKeyT`. -/
def houseKeyT : Pubkey := (fpaTest [walletKeyT] pidTest).1

/-- A concrete liege-title account key. -/
def liegeKeyT : Pubkey := List.replicate 32 9

/-- The title address `fpaTest` derives for `(liegeKeyT, idx)`. -/
def titleKeyT (idx : Nat) : Pubkey :=
  (fpaTest [liegeKeyT, List.replicate 32 idx] pidTest).1

/-- The signing, funding wallet account (owned by the system program). -/
def walletT : AccountInfo :=
  { key := walletKeyT, is_signer := true, is_writable := true,
    owner := systemProgramId, data := [] }

/-- The wallet's derived house account. -/
def houseT : AccountInfo :=
  { key := houseKeyT, is_signer := false, is_writable := true,
    owner := pidTest, data := [] }

/-- An account placed in the system-allocator position whose key is *not*
the system program's identity. -/
def sysT : AccountInfo :=
  { key := List.replicate 32 5, is_signer := false, is_writable := false,
    owner := pidTest, data := [] }

/-- A wallet whose owner is not the system program. -/
def walletBadOwnerT : AccountInfo :=
  { key := walletKeyT, is_signer := true, is_writable := true,
    owner := pidTest, data := [] }

/-- A house account at an address other than the derived one. -/
def houseBadT : AccountInfo :=
  { key := List.replicate 32 2, is_signer := false, is_writable := true,
    owner := pidTest, data := [] }

/-- The new-title account for vassal index `idx`, at the derived address. -/
def newTitleT (idx : Nat) : AccountInfo :=
  { key := titleKeyT idx, is_signer := false, is_writable := true,
    owner := pidTest, data := [] }

/-- A rank-2 liege title with no vassals, held by the wallet's house. -/
def liegeTdT : TitleData :=
  { version := 1, lifecycle_state := 1, rank := 2, kind := 1,
    required_stake_lamports := 5, sale_price_lamports := 5,
    coat_of_arms := [], display_name := [],
    holder_house_address := houseKeyT, stake_address := zeroPubkey,
    liege_address := List.replicate 32 4, liege_vassal_index := 0,
    vassal_addresses := [] }

/-- The liege-title account holding `liegeTdT` (padded data buffer). -/
def liegeAccT : AccountInfo :=
  { key := liegeKeyT, is_signer := false, is_writable := true,
    owner := pidTest,
    data := serializeTitle liegeTdT ++ List.replicate 100 0 }

/-- A liege title like `liegeTdT` but held by a different house. -/
def liegeBadTd : TitleData :=
  { liegeTdT with holder_house_address := List.replicate 32 8 }

/-- The liege-title account holding `liegeBadTd`. -/
def liegeBadAcc : AccountInfo :=
  { key := liegeKeyT, is_signer := false, is_writable := true,
    owner := pidTest,
    data := serializeTitle liegeBadTd ++ List.replicate 100 0 }

/-- A liege title like `liegeTdT` but of rank 5. -/
def liegeHighTd : TitleData := { liegeTdT with rank := 5 }

/-- The liege-title account holding `liegeHighTd`. -/
def liegeHighAcc : AccountInfo :=
  { key := liegeKeyT, is_signer := false, is_writable := true,
    owner := pidTest,
    data := serializeTitle liegeHighTd ++ List.replicate 100 0 }

/-- A rank-2 liege title already holding `MAX_VASSALS` (64) vassals. -/
def liege64Td : TitleData :=
  { version := 1, lifecycle_state := 1, rank := 2, kind := 1,
    required_stake_lamports := 5, sale_price_lamports := 5,
    coat_of_arms := [], display_name := [],
    holder_house_address := houseKeyT, stake_address := zeroPubkey,
    liege_address := List.replicate 32 4, liege_vassal_index := 0,
    vassal_addresses := List.replicate 64 (List.replicate 32 3) }

/-- The liege-title account holding `liege64Td`, padded to the
`TitleData::SIZE`-byte buffer it was allocated with. -/
def liege64Acc : AccountInfo :=
  { key := liegeKeyT, is_signer := false, is_writable := true,
    owner := pidTest,
    data := serializeTitle liege64Td ++ List.replicate 248 0 }

/-- A `HouseData` record with both text fields at the documented maximum
of 128 bytes. -/
def fullHouseT : HouseData :=
  { version := 1, governance_token_supply := 1,
    coat_of_arms := List.replicate 128 0,
    display_name := List.replicate 128 0, prestige := 0, virtue := 0 }

/-! ## Theorems -/

theorem readU8_cons (b : Nat) (r : List Nat) : readU8 (b :: r) = some (b, r) :=
  rfl

/-! ## Round-trip lemmas for the primitive codecs -/

theorem readU16_u16le (n : Nat) (r : List Nat) :
    readU16 (u16le n ++ r) = some (n, r) := by
  simp only [u16le, List.cons_append, List.nil_append, readU16]
  congr 1
  congr 1
  omega

theorem readU32_u32le (n : Nat) (r : List Nat) :
    readU32 (u32le n ++ r) = some (n, r) := by
  simp only [u32le, List.append_assoc, readU32, readU16_u16le,
    Option.bind_eq_bind, Option.some_bind]
  simp only [Option.pure_def]
  congr 2
  omega

theorem readU64_u64le (n : Nat) (r : List Nat) :
    readU64 (u64le n ++ r) = some (n, r) := by
  simp only [u64le, List.append_assoc, readU64, readU32_u32le,
    Option.bind_eq_bind, Option.some_bind]
  simp only [Option.pure_def]
  congr 2
  omega

theorem readI32_i32le (i : Int) (hlo : -(2 ^ 31) ≤ i) (hhi : i < 2 ^ 31)
    (r : List Nat) : readI32 (i32le i ++ r) = some (i, r) := by
  have hmod : (0 : Int) ≤ i % (2 ^ 32 : Int) := Int.emod_nonneg i (by norm_num)
  have hmod2 : i % (2 ^ 32 : Int) < 2 ^ 32 := Int.emod_lt_of_pos i (by norm_num)
  simp only [i32le, readI32, readU32_u32le, Option.bind_eq_bind,
    Option.some_bind, Option.pure_def]
  congr 2
  rcases le_or_lt 0 i with hpos | hneg
  · have : i % (2 ^ 32 : Int) = i := Int.emod_eq_of_lt hpos (by omega)
    rw [this]
    rw [if_pos (by omega)]
    omega
  · have : i % (2 ^ 32 : Int) = i + 2 ^ 32 := by
      have := Int.emod_emod_of_dvd i (dvd_refl (2 ^ 32 : Int))
      omega
    rw [this]
    rw [if_neg (by omega)]
    omega

theorem readBytes_append (l r : List Nat) :
    readBytes l.length (l ++ r) = some (l, r) := by
  simp [readBytes, List.take_left, List.drop_left]

theorem readStr_strle (s : List Nat) (r : List Nat) :
    readStr (strle s ++ r) = some (s, r) := by
  simp only [strle, List.append_assoc, readStr, readU32_u32le,
    Option.bind_eq_bind, Option.some_bind]
  exact readBytes_append s r

theorem readPk_pkle (p : Pubkey) (hp : p.length = 32) (r : List Nat) :
    readPk (pkle p ++ r) = some (p, r) := by
  simp only [readPk, pkle]
  rw [← hp]
  exact readBytes_append p r

theorem readPks_concat (v : List Pubkey) (hv : ∀ p ∈ v, p.length = 32)
    (r : List Nat) :
    readPks v.length (v.foldr (fun p acc => pkle p ++ acc) [] ++ r) =
      some (v, r) := by
  induction v with
  | nil => simp [readPks]
  | cons p ps ih =>
    simp only [List.length_cons, List.foldr_cons, readPks, List.append_assoc,
      readPk_pkle p (hv p (by simp)) _, Option.bind_eq_bind, Option.some_bind]
    rw [ih (fun q hq => hv q (by simp [hq]))]
    rfl

theorem readVecPk_vecPkle (v : List Pubkey) (hv : ∀ p ∈ v, p.length = 32)
    (r : List Nat) :
    readVecPk (vecPkle v ++ r) = some (v, r) := by
  simp only [vecPkle, List.append_assoc, readVecPk, readU32_u32le,
    Option.bind_eq_bind, Option.some_bind]
  exact readPks_concat v hv r

/-- Round-trip: deserializing a serialized `HouseData` (with any trailing
bytes) recovers the record exactly. -/
theorem deserializeHouse_serializeHouse (h : HouseData) (hh : ValidHouse h)
    (r : List Nat) :
    deserializeHouse (serializeHouse h ++ r) = some (h, r) := by
  obtain ⟨h1, h2, h3, h4, h5, h6⟩ := hh
  simp only [serializeHouse, List.append_assoc, deserializeHouse,
    readU16_u16le, readStr_strle, readI32_i32le _ h3 h4, readI32_i32le _ h5 h6,
    Option.bind_eq_bind, Option.some_bind, Option.pure_def]

theorem deserializeTitleHead_spec (a b c d e f : Nat) (g : List Nat)
    (R : List Nat) :
    deserializeTitleHead (u8le a ++ (u8le b ++ (u8le c ++ (u8le d ++
      (u64le e ++ (u64le f ++ (strle g ++ R))))))) =
      some ((a, b, c, d, e, f, g), R) := by
  rw [deserializeTitleHead]
  simp only [u8le, List.cons_append, List.nil_append]
  rw [readU8_cons]; rw [Option.some_bind]; dsimp only
  rw [readU8_cons]; rw [Option.some_bind]; dsimp only
  rw [readU8_cons]; rw [Option.some_bind]; dsimp only
  rw [readU8_cons]; rw [Option.some_bind]; dsimp only
  rw [readU64_u64le]; rw [Option.some_bind]; dsimp only
  rw [readU64_u64le]; rw [Option.some_bind]; dsimp only
  rw [readStr_strle]; rw [Option.some_bind]

theorem deserializeTitleTail_spec (nm : List Nat) (hh sa lg : Pubkey)
    (ix : Nat) (vs : List Pubkey) (R : List Nat) (hhh : hh.length = 32)
    (hsa : sa.length = 32) (hlg : lg.length = 32)
    (hvs : ∀ p ∈ vs, p.length = 32) :
    deserializeTitleTail (strle nm ++ (pkle hh ++ (pkle sa ++ (pkle lg ++
      (u8le ix ++ (vecPkle vs ++ R)))))) =
      some ((nm, hh, sa, lg, ix, vs), R) := by
  rw [deserializeTitleTail]
  rw [readStr_strle]; rw [Option.some_bind]; dsimp only
  rw [readPk_pkle _ hhh]; rw [Option.some_bind]; dsimp only
  rw [readPk_pkle _ hsa]; rw [Option.some_bind]; dsimp only
  rw [readPk_pkle _ hlg]; rw [Option.some_bind]; dsimp only
  simp only [u8le, List.cons_append, List.nil_append]
  rw [readU8_cons]; rw [Option.some_bind]; dsimp only
  rw [readVecPk_vecPkle _ hvs]; rw [Option.some_bind]

/-- Round-trip: deserializing a serialized `TitleData` (with any trailing
bytes) recovers the record exactly. -/
theorem deserializeTitle_serializeTitle (t : TitleData) (ht : ValidTitle t)
    (r : List Nat) :
    deserializeTitle (serializeTitle t ++ r) = some (t, r) := by
  obtain ⟨h1, h2, h3, h4⟩ := ht
  rw [serializeTitle]
  simp only [List.append_assoc]
  rw [deserializeTitle]
  rw [deserializeTitleHead_spec]; rw [Option.some_bind]; dsimp only
  rw [deserializeTitleTail_spec _ _ _ _ _ _ _ h1 h2 h3 h4]
  rw [Option.some_bind]

/-- The serialized length of a `HouseData` record: the two text fields
carry a 4-byte length prefix each, so the length varies with the text. -/
theorem serializeHouse_length (h : HouseData) :
    (serializeHouse h).length =
      20 + h.coat_of_arms.length + h.display_name.length := by
  simp only [serializeHouse, u16le, strle, u32le, i32le, List.length_append,
    List.length_cons, List.length_nil]
  omega

/-- Auxiliary: the byte length of a serialized pubkey vector. -/
theorem vecPkle_length (v : List Pubkey) (hv : ∀ p ∈ v, p.length = 32) :
    (vecPkle v).length = 4 + 32 * v.length := by
  induction v with
  | nil => simp [vecPkle, u32le, u16le]
  | cons p ps ih =>
    have hp := hv p (by simp)
    have := ih (fun q hq => hv q (by simp [hq]))
    simp only [vecPkle, u32le, u16le, List.length_append, List.foldr_cons,
      List.length_cons, List.length_nil, pkle] at *
    simp only [List.length_cons, List.length_append, hp]
    omega

/-- The serialized length of a `TitleData` record with 32-byte pubkeys. -/
theorem serializeTitle_length (t : TitleData) (ht : ValidTitle t) :
    (serializeTitle t).length =
      129 + t.coat_of_arms.length + t.display_name.length +
        32 * t.vassal_addresses.length := by
  obtain ⟨h1, h2, h3, h4⟩ := ht
  simp only [serializeTitle, u8le, u64le, u32le, u16le, strle, pkle,
    List.length_append, List.length_cons, List.length_nil, h1, h2, h3,
    vecPkle_length _ h4]
  omega

/-! ## Reaching the post-validation stage of CreateTitle -/

theorem processCreateTitle_checks
    (fpa : Fpa) (pid : Pubkey) (w h n l s : AccountInfo)
    (rest : List AccountInfo) (rank kind stake : Nat) (coa name : List Nat)
    (la : Pubkey) (idx : Nat) (ok : Bool)
    (hsig : w.is_signer = true) (hww : w.is_writable = true)
    (hnw : n.is_writable = true)
    (hlw : l.is_writable = true ∨ la = zeroPubkey)
    (hown : w.owner = systemProgramId)
    (hr1 : 1 ≤ rank) (hr8 : rank ≤ 8) (hk1 : 1 ≤ kind) (hk2 : kind ≤ 2)
    (hiff : rank = 1 ↔ la = zeroPubkey) :
    processCreateTitle fpa pid (w :: h :: n :: l :: s :: rest) rank kind
      stake coa name la idx ok =
      createTitleAfterChecks fpa pid h n l w.key rank kind stake coa name
        idx ok := by
  simp only [processCreateTitle]
  rw [if_neg (by simp [hsig])]
  rw [if_neg (by rcases hlw with hl | hl <;> simp [hww, hnw, hl])]
  rw [if_neg (by simp [hown])]
  rw [if_neg (by omega)]
  rw [if_neg (by omega)]
  rw [if_neg (by rintro ⟨h1, hnz⟩; exact hnz (hiff.mp h1))]
  rw [if_neg (by rintro ⟨hgt, hz⟩; have := hiff.mpr hz; omega)]

/-- C1: once the signer/writability/owner/rank/kind/liege-sentinel checks
pass, `process_create_title_account` re-derives the expected addresses
and rejects substituted accounts with `InvalidSeeds`: if the house
address derived from the signer's wallet key differs from the supplied
house account it fails with `InvalidSeeds` (and performs no effect), and
if the house matches but the title address derived from the liege title
account's key and the vassal index differs from the supplied new-title
account it likewise fails with `InvalidSeeds`. -/
theorem createTitle_invalid_seeds
    (fpa : Fpa) (pid : Pubkey) (w h n l s : AccountInfo)
    (rest : List AccountInfo) (rank kind stake : Nat) (coa name : List Nat)
    (la : Pubkey) (idx : Nat) (ok : Bool)
    (hsig : w.is_signer = true) (hww : w.is_writable = true)
    (hnw : n.is_writable = true)
    (hlw : l.is_writable = true ∨ la = zeroPubkey)
    (hown : w.owner = systemProgramId)
    (hr1 : 1 ≤ rank) (hr8 : rank ≤ 8) (hk1 : 1 ≤ kind) (hk2 : kind ≤ 2)
    (hiff : rank = 1 ↔ la = zeroPubkey) :
    ((fpa [w.key] pid).1 ≠ h.key →
      processCreateTitle fpa pid (w :: h :: n :: l :: s :: rest) rank kind
        stake coa name la idx ok = ([], some ProgErr.InvalidSeeds)) ∧
    ((fpa [w.key] pid).1 = h.key →
      (fpa [l.key, List.replicate 32 idx] pid).1 ≠ n.key →
      processCreateTitle fpa pid (w :: h :: n :: l :: s :: rest) rank kind
        stake coa name la idx ok = ([], some ProgErr.InvalidSeeds)) := by
  rw [processCreateTitle_checks fpa pid w h n l s rest rank kind stake coa
    name la idx ok hsig hww hnw hlw hown hr1 hr8 hk1 hk2 hiff]
  constructor
  · intro hne
    rw [createTitleAfterChecks, if_pos hne]
  · intro heq hne
    rw [createTitleAfterChecks, if_neg (by simp [heq]), if_pos hne]

/-- C4: with the signer, writability, system-owner, rank-range and
kind-range checks passing, `CreateTitle` enforces `rank == 1` iff the
`liege_address` argument is the all-zero sentinel: `rank = 1` with a
non-zero liege fails with `InvalidArgument`, `rank > 1` with the zero
liege fails with `InvalidArgument`, and `rank = 1` with the zero liege
passes this check — succeeding outright when the remaining
preconditions (address derivations, allocation, final write) hold. -/
theorem createTitle_rank_liege_sentinel
    (fpa : Fpa) (pid : Pubkey) (w h n l s : AccountInfo)
    (rest : List AccountInfo) (rank kind stake : Nat) (coa name : List Nat)
    (la : Pubkey) (idx : Nat) (ok : Bool)
    (hsig : w.is_signer = true) (hww : w.is_writable = true)
    (hnw : n.is_writable = true)
    (hlw : l.is_writable = true ∨ la = zeroPubkey)
    (hown : w.owner = systemProgramId)
    (hr1 : 1 ≤ rank) (hr8 : rank ≤ 8) (hk1 : 1 ≤ kind) (hk2 : kind ≤ 2) :
    (rank = 1 → la ≠ zeroPubkey →
      processCreateTitle fpa pid (w :: h :: n :: l :: s :: rest) rank kind
        stake coa name la idx ok = ([], some ProgErr.InvalidArgument)) ∧
    (rank > 1 → la = zeroPubkey →
      processCreateTitle fpa pid (w :: h :: n :: l :: s :: rest) rank kind
        stake coa name la idx ok = ([], some ProgErr.InvalidArgument)) ∧
    (rank = 1 → la = zeroPubkey →
      (fpa [w.key] pid).1 = h.key →
      (fpa [l.key, List.replicate 32 idx] pid).1 = n.key →
      ok = true →
      (serializeTitle (mkNewTitleData rank kind stake coa name h.key l.key
        idx)).length ≤ TitleData.SIZE →
      processCreateTitle fpa pid (w :: h :: n :: l :: s :: rest) rank kind
        stake coa name la idx ok =
        ([Event.createAccount n.key TitleData.SIZE,
          Event.writeAccount n.key (serializeTitle (mkNewTitleData rank
            kind stake coa name h.key l.key idx))], none)) := by
  refine ⟨?_, ?_, ?_⟩
  · intro hr hnz
    simp only [processCreateTitle]
    rw [if_neg (by simp [hsig])]
    rw [if_neg (by rcases hlw with hl | hl <;> simp [hww, hnw, hl])]
    rw [if_neg (by simp [hown])]
    rw [if_neg (by omega)]
    rw [if_neg (by omega)]
    rw [if_pos ⟨hr, hnz⟩]
  · intro hr hz
    simp only [processCreateTitle]
    rw [if_neg (by simp [hsig])]
    rw [if_neg (by rcases hlw with hl | hl <;> simp [hww, hnw, hl])]
    rw [if_neg (by simp [hown])]
    rw [if_neg (by omega)]
    rw [if_neg (by omega)]
    rw [if_neg (by rintro ⟨h1, hnz⟩; exact hnz hz)]
    rw [if_pos ⟨hr, hz⟩]
  · intro hr hz hhouse htitle hok hfit
    rw [processCreateTitle_checks fpa pid w h n l s rest rank kind stake
      coa name la idx ok hsig hww hnw hlw hown hr1 hr8 hk1 hk2
      (by constructor <;> intro <;> [exact hz; exact hr])]
    rw [createTitleAfterChecks, if_neg (fun hne => hne hhouse)]
    rw [if_neg (fun hne => hne htitle)]
    rw [if_neg (by omega)]
    simp [createTitleFinish, hok, hfit]

/-- Reaching the `rank > 1` liege branch: with all validation checks and
both address derivations passing, `processCreateTitle` is the liege
branch with the derived title address (= the supplied new-title key). -/
theorem processCreateTitle_liege_reach
    (fpa : Fpa) (pid : Pubkey) (w h n l s : AccountInfo)
    (rest : List AccountInfo) (rank kind stake : Nat) (coa name : List Nat)
    (la : Pubkey) (idx : Nat) (ok : Bool)
    (hsig : w.is_signer = true) (hww : w.is_writable = true)
    (hnw : n.is_writable = true) (hlw : l.is_writable = true)
    (hown : w.owner = systemProgramId)
    (hr2 : 2 ≤ rank) (hr8 : rank ≤ 8) (hk1 : 1 ≤ kind) (hk2 : kind ≤ 2)
    (hla : la ≠ zeroPubkey)
    (hhouse : (fpa [w.key] pid).1 = h.key)
    (htitle : (fpa [l.key, List.replicate 32 idx] pid).1 = n.key) :
    processCreateTitle fpa pid (w :: h :: n :: l :: s :: rest) rank kind
      stake coa name la idx ok =
      createTitleLiegeBranch h n l rank kind stake coa name idx n.key ok := by
  rw [processCreateTitle_checks fpa pid w h n l s rest rank kind stake coa
    name la idx ok hsig hww hnw (Or.inl hlw) hown (by omega) hr8 hk1 hk2
    ⟨fun h1 => by omega, fun hz => absurd hz hla⟩]
  rw [createTitleAfterChecks, if_neg (fun hne => hne hhouse)]
  rw [if_neg (fun hne => hne htitle)]
  rw [if_pos (by omega)]
  rw [htitle]

/-- C6: for `CreateTitle` with `rank > 1` and all other checks passing,
if the deserialized liege title's `holder_house_address` differs from
the supplied (derivation-checked) house account's key, the instruction
fails with `IncorrectAuthority` (`ProgramError::Custom(0)`) and performs
no write. -/
theorem createTitle_authority_mismatch
    (fpa : Fpa) (pid : Pubkey) (w h n l s : AccountInfo)
    (rest : List AccountInfo) (rank kind stake : Nat) (coa name : List Nat)
    (la : Pubkey) (idx : Nat) (ok : Bool) (td : TitleData) (tr : List Nat)
    (hsig : w.is_signer = true) (hww : w.is_writable = true)
    (hnw : n.is_writable = true) (hlw : l.is_writable = true)
    (hown : w.owner = systemProgramId)
    (hr2 : 2 ≤ rank) (hr8 : rank ≤ 8) (hk1 : 1 ≤ kind) (hk2 : kind ≤ 2)
    (hla : la ≠ zeroPubkey)
    (hhouse : (fpa [w.key] pid).1 = h.key)
    (htitle : (fpa [l.key, List.replicate 32 idx] pid).1 = n.key)
    (htd : deserializeTitle l.data = some (td, tr))
    (hmis : td.holder_house_address ≠ h.key) :
    processCreateTitle fpa pid (w :: h :: n :: l :: s :: rest) rank kind
      stake coa name la idx ok = ([], some incorrectAuthorityErr) := by
  rw [processCreateTitle_liege_reach fpa pid w h n l s rest rank kind stake
    coa name la idx ok hsig hww hnw hlw hown hr2 hr8 hk1 hk2 hla hhouse
    htitle]
  rw [createTitleLiegeBranch, htd]
  exact if_pos hmis

/-- Success shape of the liege branch: with the deserialized liege held
by the caller's house, the index equal to the vassal count, a strictly
greater rank, and both serialized records fitting their buffers, the
branch persists the extended liege record and then creates and writes
the new title. -/
theorem createTitleLiegeBranch_success
    (h n l : AccountInfo) (rank kind stake : Nat) (coa name : List Nat)
    (idx : Nat) (td : TitleData) (tr : List Nat)
    (htd : deserializeTitle l.data = some (td, tr))
    (hholder : td.holder_house_address = h.key)
    (hlen : td.vassal_addresses.length = idx)
    (hrk : td.rank < rank)
    (hfitL : (serializeTitle { td with
      vassal_addresses := td.vassal_addresses ++ [n.key] }).length ≤
      l.data.length)
    (hfitN : (serializeTitle (mkNewTitleData rank kind stake coa name
      h.key l.key idx)).length ≤ TitleData.SIZE) :
    createTitleLiegeBranch h n l rank kind stake coa name idx n.key true =
      ([Event.writeAccount l.key (serializeTitle { td with
          vassal_addresses := td.vassal_addresses ++ [n.key] }),
        Event.createAccount n.key TitleData.SIZE,
        Event.writeAccount n.key (serializeTitle (mkNewTitleData rank kind
          stake coa name h.key l.key idx))], none) := by
  rw [createTitleLiegeBranch, htd]
  dsimp only
  rw [if_neg (fun hx => hx hholder)]
  rw [if_neg (fun hx => hx hlen)]
  rw [if_neg (by omega)]
  rw [if_pos hfitL]
  simp only [createTitleFinish]
  rw [if_neg (by simp)]
  rw [if_pos hfitN]
  simp

/-- C3: for a liege title currently holding `k` vassals (and the caller's
house holding it), a `CreateTitle` under it with `liege_vassal_index ≠ k`
fails with `InvalidArgument`; with `liege_vassal_index = k` and the
remaining preconditions (strictly greater rank, buffer fit, allocation,
final write fit) holding, it succeeds, and the record persisted into the
liege account is the old record with the new title's address appended:
its vassal list has length `k + 1` and its last element is the new
title's key. -/
theorem createTitle_vassal_index
    (fpa : Fpa) (pid : Pubkey) (w h n l s : AccountInfo)
    (rest : List AccountInfo) (rank kind stake : Nat) (coa name : List Nat)
    (la : Pubkey) (idx : Nat) (ok : Bool) (td : TitleData) (tr : List Nat)
    (hsig : w.is_signer = true) (hww : w.is_writable = true)
    (hnw : n.is_writable = true) (hlw : l.is_writable = true)
    (hown : w.owner = systemProgramId)
    (hr2 : 2 ≤ rank) (hr8 : rank ≤ 8) (hk1 : 1 ≤ kind) (hk2 : kind ≤ 2)
    (hla : la ≠ zeroPubkey)
    (hhouse : (fpa [w.key] pid).1 = h.key)
    (htitle : (fpa [l.key, List.replicate 32 idx] pid).1 = n.key)
    (htd : deserializeTitle l.data = some (td, tr))
    (hholder : td.holder_house_address = h.key) :
    (td.vassal_addresses.length ≠ idx →
      processCreateTitle fpa pid (w :: h :: n :: l :: s :: rest) rank kind
        stake coa name la idx ok = ([], some ProgErr.InvalidArgument)) ∧
    (td.vassal_addresses.length = idx → td.rank < rank →
      (serializeTitle { td with
        vassal_addresses := td.vassal_addresses ++ [n.key] }).length ≤
        l.data.length →
      ok = true →
      (serializeTitle (mkNewTitleData rank kind stake coa name h.key l.key
        idx)).length ≤ TitleData.SIZE →
      processCreateTitle fpa pid (w :: h :: n :: l :: s :: rest) rank kind
        stake coa name la idx ok =
        ([Event.writeAccount l.key (serializeTitle { td with
            vassal_addresses := td.vassal_addresses ++ [n.key] }),
          Event.createAccount n.key TitleData.SIZE,
          Event.writeAccount n.key (serializeTitle (mkNewTitleData rank
            kind stake coa name h.key l.key idx))], none) ∧
        ({ td with vassal_addresses := td.vassal_addresses ++ [n.key] } :
          TitleData).vassal_addresses.length =
          td.vassal_addresses.length + 1 ∧
        ({ td with vassal_addresses := td.vassal_addresses ++ [n.key] } :
          TitleData).vassal_addresses.getLast? = some n.key) := by
  have hreach := processCreateTitle_liege_reach fpa pid w h n l s rest rank
    kind stake coa name la idx ok hsig hww hnw hlw hown hr2 hr8 hk1 hk2 hla
    hhouse htitle
  constructor
  · intro hne
    rw [hreach, createTitleLiegeBranch, htd]
    dsimp only
    rw [if_neg (fun hx => hx hholder)]
    exact if_pos hne
  · intro hlen hrk hfitL hok hfitN
    refine ⟨?_, by simp, by simp⟩
    subst hok
    rw [hreach]
    exact createTitleLiegeBranch_success h n l rank kind stake coa name idx
      td tr htd hholder hlen hrk hfitL hfitN

/-- C7: on the reached liege branch, a requested rank not strictly above
the liege's rank fails with `InvalidArgument`; and conversely every
successful `CreateTitle` with `rank > 1` was made under a liege whose
deserialized rank is strictly below the new rank. -/
theorem createTitle_rank_strictly_increases
    (fpa : Fpa) (pid : Pubkey) (w h n l s : AccountInfo)
    (rest : List AccountInfo) (rank kind stake : Nat) (coa name : List Nat)
    (la : Pubkey) (idx : Nat) (ok : Bool) (td : TitleData) (tr : List Nat)
    (htd : deserializeTitle l.data = some (td, tr)) :
    (∀ (hsig : w.is_signer = true) (hww : w.is_writable = true)
      (hnw : n.is_writable = true) (hlw : l.is_writable = true)
      (hown : w.owner = systemProgramId)
      (hr2 : 2 ≤ rank) (hr8 : rank ≤ 8) (hk1 : 1 ≤ kind) (hk2 : kind ≤ 2)
      (hla : la ≠ zeroPubkey)
      (hhouse : (fpa [w.key] pid).1 = h.key)
      (htitle : (fpa [l.key, List.replicate 32 idx] pid).1 = n.key)
      (hholder : td.holder_house_address = h.key)
      (hlen : td.vassal_addresses.length = idx)
      (hge : td.rank ≥ rank),
      processCreateTitle fpa pid (w :: h :: n :: l :: s :: rest) rank kind
        stake coa name la idx ok = ([], some ProgErr.InvalidArgument)) ∧
    ((processCreateTitle fpa pid (w :: h :: n :: l :: s :: rest) rank kind
        stake coa name la idx ok).2 = none → 1 < rank → td.rank < rank) := by
  constructor
  · intro hsig hww hnw hlw hown hr2 hr8 hk1 hk2 hla hhouse htitle hholder
      hlen hge
    rw [processCreateTitle_liege_reach fpa pid w h n l s rest rank kind
      stake coa name la idx ok hsig hww hnw hlw hown hr2 hr8 hk1 hk2 hla
      hhouse htitle]
    rw [createTitleLiegeBranch, htd]
    dsimp only
    rw [if_neg (fun hx => hx hholder)]
    rw [if_neg (fun hx => hx hlen)]
    exact if_pos hge
  · intro hok hrank
    by_contra hge
    push_neg at hge
    simp only [processCreateTitle] at hok
    split at hok
    · simp at hok
    split at hok
    · simp at hok
    split at hok
    · simp at hok
    split at hok
    · simp at hok
    split at hok
    · simp at hok
    split at hok
    · simp at hok
    split at hok
    · simp at hok
    simp only [createTitleAfterChecks] at hok
    split at hok
    · simp at hok
    split at hok
    · simp at hok
    rw [createTitleLiegeBranch, htd] at hok
    dsimp only at hok
    split at hok
    · simp at hok
    split at hok
    · simp at hok
    simp at hok

/-- Exhaustive outcome shapes of `process_create_title_account`: every
validation error leaves no effect; the liege-record write, when it
happens, precedes the new-account allocation, which precedes the final
record write. -/
theorem createTitle_shape
    (fpa : Fpa) (pid : Pubkey) (w h n l s : AccountInfo)
    (rest : List AccountInfo) (rank kind stake : Nat) (coa name : List Nat)
    (la : Pubkey) (idx : Nat) (ok : Bool) (res : List Event × Option ProgErr)
    (hres : processCreateTitle fpa pid (w :: h :: n :: l :: s :: rest) rank
      kind stake coa name la idx ok = res) :
    (∃ e, e.isValidation = true ∧ res = ([], some e)) ∨
    (1 < rank ∧ res = ([], some ProgErr.BorshIoError)) ∨
    (rank ≤ 1 ∧ res = ([], some ProgErr.AllocFailed)) ∨
    (1 < rank ∧ ∃ d,
      res = ([Event.writeAccount l.key d], some ProgErr.AllocFailed)) ∨
    (rank ≤ 1 ∧
      res = ([Event.createAccount n.key TitleData.SIZE],
        some ProgErr.BorshIoError)) ∨
    (1 < rank ∧ ∃ d,
      res = ([Event.writeAccount l.key d,
        Event.createAccount n.key TitleData.SIZE],
        some ProgErr.BorshIoError)) ∨
    (rank ≤ 1 ∧
      res = ([Event.createAccount n.key TitleData.SIZE,
        Event.writeAccount n.key (serializeTitle (mkNewTitleData rank kind
          stake coa name h.key l.key idx))], none)) ∨
    (1 < rank ∧ ∃ d,
      res = ([Event.writeAccount l.key d,
        Event.createAccount n.key TitleData.SIZE,
        Event.writeAccount n.key (serializeTitle (mkNewTitleData rank kind
          stake coa name h.key l.key idx))], none)) := by
  simp only [processCreateTitle] at hres
  split at hres
  · exact Or.inl ⟨ProgErr.MissingRequiredSignature, rfl, hres.symm⟩
  split at hres
  · exact Or.inl ⟨ProgErr.InvalidArgument, rfl, hres.symm⟩
  split at hres
  · exact Or.inl ⟨ProgErr.IncorrectProgramId, rfl, hres.symm⟩
  split at hres
  · exact Or.inl ⟨ProgErr.InvalidArgument, rfl, hres.symm⟩
  split at hres
  · exact Or.inl ⟨ProgErr.InvalidArgument, rfl, hres.symm⟩
  split at hres
  · exact Or.inl ⟨ProgErr.InvalidArgument, rfl, hres.symm⟩
  split at hres
  · exact Or.inl ⟨ProgErr.InvalidArgument, rfl, hres.symm⟩
  simp only [createTitleAfterChecks] at hres
  split at hres
  · exact Or.inl ⟨ProgErr.InvalidSeeds, rfl, hres.symm⟩
  split at hres
  · exact Or.inl ⟨ProgErr.InvalidSeeds, rfl, hres.symm⟩
  split at hres
  -- rank > 1: the liege branch
  · next hrank =>
    simp only [createTitleLiegeBranch] at hres
    split at hres
    · exact Or.inl ⟨ProgErr.InvalidAccountData, rfl, hres.symm⟩
    split at hres
    · exact Or.inl ⟨incorrectAuthorityErr, rfl, hres.symm⟩
    split at hres
    · exact Or.inl ⟨ProgErr.InvalidArgument, rfl, hres.symm⟩
    split at hres
    · exact Or.inl ⟨ProgErr.InvalidArgument, rfl, hres.symm⟩
    split at hres
    -- the liege write fits: continue into the finish
    · simp only [createTitleFinish] at hres
      split at hres
      · exact Or.inr (Or.inr (Or.inr (Or.inl ⟨hrank, _, hres.symm⟩)))
      split at hres
      · exact Or.inr (Or.inr (Or.inr (Or.inr (Or.inr (Or.inr (Or.inr
          ⟨hrank, _, hres.symm⟩))))))
      · exact Or.inr (Or.inr (Or.inr (Or.inr (Or.inr (Or.inl
          ⟨hrank, _, hres.symm⟩)))))
    -- the liege write does not fit
    · exact Or.inr (Or.inl ⟨hrank, hres.symm⟩)
  -- rank = 1: straight to the finish
  · next hrank =>
    simp only [createTitleFinish] at hres
    split at hres
    · exact Or.inr (Or.inr (Or.inl ⟨by omega, hres.symm⟩))
    split at hres
    · exact Or.inr (Or.inr (Or.inr (Or.inr (Or.inr (Or.inr (Or.inl
        ⟨by omega, hres.symm⟩))))))
    · exact Or.inr (Or.inr (Or.inr (Or.inr (Or.inl
        ⟨by omega, hres.symm⟩))))

/-- C8: every validation failure of `CreateHouse` or `CreateTitle` is
detected before any ledger effect and aborts the instruction with no
effect performed. The one exception is `CreateTitle` with `rank > 1`
past its checks: the extended liege record is written *before* the new
title account is allocated, so an allocation failure leaves exactly the
liege write behind, a final-write failure leaves the liege write and the
allocation behind (unless the liege write itself failed), and a
successful run's effects are liege write, allocation, title write, in
that order. -/
theorem create_no_effect_on_validation_failure
    (fpa : Fpa) (pid : Pubkey) :
    (∀ accounts coa name ok evs e,
      processCreateHouse fpa pid accounts coa name ok = (evs, some e) →
      e.isValidation = true → evs = []) ∧
    (∀ accounts rank kind stake coa name la idx ok evs e,
      processCreateTitle fpa pid accounts rank kind stake coa name la idx
        ok = (evs, some e) → e.isValidation = true → evs = []) ∧
    (∀ w h n l s rest rank kind stake coa name la idx ok evs,
      1 < rank →
      processCreateTitle fpa pid (w :: h :: n :: l :: s :: rest) rank kind
        stake coa name la idx ok = (evs, some ProgErr.AllocFailed) →
      ∃ d, evs = [Event.writeAccount l.key d]) ∧
    (∀ w h n l s rest rank kind stake coa name la idx ok evs,
      1 < rank →
      processCreateTitle fpa pid (w :: h :: n :: l :: s :: rest) rank kind
        stake coa name la idx ok = (evs, some ProgErr.BorshIoError) →
      evs = [] ∨ ∃ d, evs = [Event.writeAccount l.key d,
        Event.createAccount n.key TitleData.SIZE]) ∧
    (∀ w h n l s rest rank kind stake coa name la idx ok evs,
      1 < rank →
      processCreateTitle fpa pid (w :: h :: n :: l :: s :: rest) rank kind
        stake coa name la idx ok = (evs, none) →
      ∃ d, evs = [Event.writeAccount l.key d,
        Event.createAccount n.key TitleData.SIZE,
        Event.writeAccount n.key (serializeTitle (mkNewTitleData rank kind
          stake coa name h.key l.key idx))]) := by
  refine ⟨?_, ?_, ?_, ?_, ?_⟩
  · intro accounts coa name ok evs e hrun hval
    rcases accounts with _ | ⟨w, accounts⟩
    · simp only [processCreateHouse] at hrun
      injection hrun with h1 h2
      exact h1.symm
    rcases accounts with _ | ⟨h, accounts⟩
    · simp only [processCreateHouse] at hrun
      injection hrun with h1 h2
      exact h1.symm
    rcases accounts with _ | ⟨sys, accounts⟩
    · simp only [processCreateHouse] at hrun
      injection hrun with h1 h2
      exact h1.symm
    simp only [processCreateHouse] at hrun
    split at hrun
    · injection hrun with h1 h2
      exact h1.symm
    split at hrun
    · injection hrun with h1 h2
      exact h1.symm
    split at hrun
    · injection hrun with h1 h2
      exact h1.symm
    split at hrun
    · injection hrun with h1 h2
      exact h1.symm
    split at hrun
    · injection hrun with h1 h2
      exact h1.symm
    split at hrun
    · injection hrun with h1 h2
      exact Option.noConfusion h2
    · injection hrun with h1 h2
      injection h2 with h3
      rw [← h3] at hval
      simp [ProgErr.isValidation] at hval
  · intro accounts rank kind stake coa name la idx ok evs e hrun hval
    rcases accounts with _ | ⟨w, accounts⟩
    · simp only [processCreateTitle] at hrun
      exact (congrArg Prod.fst hrun).symm
    rcases accounts with _ | ⟨h, accounts⟩
    · simp only [processCreateTitle] at hrun
      exact (congrArg Prod.fst hrun).symm
    rcases accounts with _ | ⟨n, accounts⟩
    · simp only [processCreateTitle] at hrun
      exact (congrArg Prod.fst hrun).symm
    rcases accounts with _ | ⟨l, accounts⟩
    · simp only [processCreateTitle] at hrun
      exact (congrArg Prod.fst hrun).symm
    rcases accounts with _ | ⟨s, accounts⟩
    · simp only [processCreateTitle] at hrun
      exact (congrArg Prod.fst hrun).symm
    rcases createTitle_shape fpa pid w h n l s accounts rank kind stake
      coa name la idx ok (evs, some e) hrun with
      ⟨e', hv', he⟩ | ⟨_, he⟩ | ⟨_, he⟩ | ⟨_, d, he⟩ | ⟨_, he⟩ |
      ⟨_, d, he⟩ | ⟨_, he⟩ | ⟨_, d, he⟩
    · exact congrArg Prod.fst he
    · rw [Option.some.inj (congrArg Prod.snd he)] at hval
      simp [ProgErr.isValidation] at hval
    · rw [Option.some.inj (congrArg Prod.snd he)] at hval
      simp [ProgErr.isValidation] at hval
    · rw [Option.some.inj (congrArg Prod.snd he)] at hval
      simp [ProgErr.isValidation] at hval
    · rw [Option.some.inj (congrArg Prod.snd he)] at hval
      simp [ProgErr.isValidation] at hval
    · rw [Option.some.inj (congrArg Prod.snd he)] at hval
      simp [ProgErr.isValidation] at hval
    · exact Option.noConfusion (congrArg Prod.snd he)
    · exact Option.noConfusion (congrArg Prod.snd he)
  · intro w h n l s rest rank kind stake coa name la idx ok evs hrank hrun
    rcases createTitle_shape fpa pid w h n l s rest rank kind stake coa
      name la idx ok (evs, some ProgErr.AllocFailed) hrun with
      ⟨e', hv', he⟩ | ⟨_, he⟩ | ⟨hr1, he⟩ | ⟨_, d, he⟩ | ⟨hr1, he⟩ |
      ⟨_, d, he⟩ | ⟨hr1, he⟩ | ⟨_, d, he⟩
    · rw [← Option.some.inj (congrArg Prod.snd he)] at hv'
      simp [ProgErr.isValidation] at hv'
    · exact ProgErr.noConfusion (Option.some.inj (congrArg Prod.snd he))
    · omega
    · exact ⟨d, congrArg Prod.fst he⟩
    · omega
    · exact ProgErr.noConfusion (Option.some.inj (congrArg Prod.snd he))
    · omega
    · exact Option.noConfusion (congrArg Prod.snd he)
  · intro w h n l s rest rank kind stake coa name la idx ok evs hrank hrun
    rcases createTitle_shape fpa pid w h n l s rest rank kind stake coa
      name la idx ok (evs, some ProgErr.BorshIoError) hrun with
      ⟨e', hv', he⟩ | ⟨_, he⟩ | ⟨hr1, he⟩ | ⟨_, d, he⟩ | ⟨hr1, he⟩ |
      ⟨_, d, he⟩ | ⟨hr1, he⟩ | ⟨_, d, he⟩
    · rw [← Option.some.inj (congrArg Prod.snd he)] at hv'
      simp [ProgErr.isValidation] at hv'
    · exact Or.inl (congrArg Prod.fst he)
    · omega
    · exact ProgErr.noConfusion (Option.some.inj (congrArg Prod.snd he))
    · omega
    · exact Or.inr ⟨d, congrArg Prod.fst he⟩
    · omega
    · exact Option.noConfusion (congrArg Prod.snd he)
  · intro w h n l s rest rank kind stake coa name la idx ok evs hrank hrun
    rcases createTitle_shape fpa pid w h n l s rest rank kind stake coa
      name la idx ok (evs, none) hrun with
      ⟨e', hv', he⟩ | ⟨_, he⟩ | ⟨hr1, he⟩ | ⟨_, d, he⟩ | ⟨hr1, he⟩ |
      ⟨_, d, he⟩ | ⟨hr1, he⟩ | ⟨_, d, he⟩
    · exact Option.noConfusion (congrArg Prod.snd he)
    · exact Option.noConfusion (congrArg Prod.snd he)
    · omega
    · exact Option.noConfusion (congrArg Prod.snd he)
    · omega
    · exact Option.noConfusion (congrArg Prod.snd he)
    · omega
    · exact ⟨d, congrArg Prod.fst he⟩

/-- C10: the `liege_address` instruction argument is consulted only for
the zero-sentinel tests; every successful `CreateTitle` derived the new
title's address from the key of the supplied liege-title account
(position 3) and stored that key as the new record's `liege_address`.
Consequently, whenever the argument differs from the position-3 account
key, the created record's `liege_address` differs from the argument. -/
theorem createTitle_liege_key_provenance
    (fpa : Fpa) (pid : Pubkey) (w h n l s : AccountInfo)
    (rest : List AccountInfo) (rank kind stake : Nat) (coa name : List Nat)
    (la : Pubkey) (idx : Nat) (ok : Bool)
    (hok : (processCreateTitle fpa pid (w :: h :: n :: l :: s :: rest) rank
      kind stake coa name la idx ok).2 = none) :
    (fpa [l.key, List.replicate 32 idx] pid).1 = n.key ∧
    (∃ evs,
      (processCreateTitle fpa pid (w :: h :: n :: l :: s :: rest) rank kind
        stake coa name la idx ok).1 = evs ++
        [Event.createAccount n.key TitleData.SIZE,
         Event.writeAccount n.key (serializeTitle (mkNewTitleData rank kind
           stake coa name h.key l.key idx))]) ∧
    (mkNewTitleData rank kind stake coa name h.key l.key idx).liege_address
      = l.key ∧
    (la ≠ l.key →
      (mkNewTitleData rank kind stake coa name h.key l.key
        idx).liege_address ≠ la) := by
  refine ⟨?_, ?_, rfl, fun hne => Ne.symm hne⟩
  · have hok2 := hok
    simp only [processCreateTitle] at hok2
    split at hok2
    · simp at hok2
    split at hok2
    · simp at hok2
    split at hok2
    · simp at hok2
    split at hok2
    · simp at hok2
    split at hok2
    · simp at hok2
    split at hok2
    · simp at hok2
    split at hok2
    · simp at hok2
    simp only [createTitleAfterChecks] at hok2
    split at hok2
    · simp at hok2
    split at hok2
    · simp at hok2
    next hT => exact not_ne_iff.mp hT
  · rcases createTitle_shape fpa pid w h n l s rest rank kind stake coa
      name la idx ok (processCreateTitle fpa pid
        (w :: h :: n :: l :: s :: rest) rank kind stake coa name la idx
        ok) rfl with
      ⟨e', hv', he⟩ | ⟨_, he⟩ | ⟨_, he⟩ | ⟨_, d, he⟩ | ⟨_, he⟩ |
      ⟨_, d, he⟩ | ⟨_, he⟩ | ⟨_, d, he⟩
    · rw [he] at hok
      simp at hok
    · rw [he] at hok
      simp at hok
    · rw [he] at hok
      simp at hok
    · rw [he] at hok
      simp at hok
    · rw [he] at hok
      simp at hok
    · rw [he] at hok
      simp at hok
    · rw [he]
      exact ⟨[], rfl⟩
    · rw [he]
      exact ⟨[Event.writeAccount l.key d], rfl⟩

/-- The allocator-identity check `check_system_program` is applied to the
*owner of the funding wallet account*: with the signer and writability
checks passing, a wallet whose owner is not the system allocator identity
makes both instructions fail with `IncorrectProgramId` before any effect.
(The account passed in the allocator position is itself never compared
against the system program's identity — see the counterexample.) -/
theorem create_checks_wallet_owner
    (fpa : Fpa) (pid : Pubkey) :
    (∀ (w h sys : AccountInfo) (rest : List AccountInfo) coa name ok,
      w.is_signer = true → w.is_writable = true → h.is_writable = true →
      w.owner ≠ systemProgramId →
      processCreateHouse fpa pid (w :: h :: sys :: rest) coa name ok =
        ([], some ProgErr.IncorrectProgramId)) ∧
    (∀ (w h n l s : AccountInfo) (rest : List AccountInfo) rank kind stake
      coa name (la : Pubkey) idx ok,
      w.is_signer = true → w.is_writable = true → n.is_writable = true →
      (l.is_writable = true ∨ la = zeroPubkey) →
      w.owner ≠ systemProgramId →
      processCreateTitle fpa pid (w :: h :: n :: l :: s :: rest) rank kind
        stake coa name la idx ok = ([], some ProgErr.IncorrectProgramId)) := by
  constructor
  · intro w h sys rest coa name ok hsig hww hhw hown
    simp only [processCreateHouse]
    rw [if_neg (by simp [hsig])]
    rw [if_neg (by simp [hww, hhw])]
    rw [if_pos hown]
  · intro w h n l s rest rank kind stake coa name la idx ok hsig hww hnw
      hlw hown
    simp only [processCreateTitle]
    rw [if_neg (by simp [hsig])]
    rw [if_neg (by rcases hlw with hl | hl <;> simp [hww, hnw, hl])]
    rw [if_pos hown]

/-- C2 (code bug): borsh serializes the `String` fields with a 4-byte
length prefix, so a House record with both text fields at their
documented 128-byte maximum serializes to 276 bytes, not the declared
`HouseData::SIZE` of 268 — the length clause of the round-trip property
fails on the code (round-trip itself holds, see
`deserializeHouse_serializeHouse`). -/
theorem house_serialized_size_mismatch :
    deserializeHouse (serializeHouse fullHouseT) = some (fullHouseT, []) ∧
    (serializeHouse fullHouseT).length = 276 ∧
    HouseData.SIZE = 268 ∧
    (serializeHouse fullHouseT).length ≠ HouseData.SIZE := by
  refine ⟨?_, ?_, by decide, ?_⟩
  · simpa using deserializeHouse_serializeHouse fullHouseT (by decide) []
  · rw [serializeHouse_length]
    simp [fullHouseT]
  · rw [serializeHouse_length]
    simp [fullHouseT, HouseData.SIZE]

/-- C5 (code bug): no `MAX_VASSALS` check exists in the processor: a
liege already holding 64 vassals accepts `CreateTitle` at index 64 and
persists a 65-entry vassal list (the declared cap `MAX_VASSALS = 64` is
never consulted). -/
theorem createTitle_exceeds_vassal_cap :
    liege64Td.vassal_addresses.length = MAX_VASSALS ∧
    processCreateTitle fpaTest pidTest
      [walletT, houseT, newTitleT 64, liege64Acc, sysT] 3 1 1000 [] []
      liegeKeyT 64 true =
      ([Event.writeAccount liegeKeyT (serializeTitle { liege64Td with
          vassal_addresses := liege64Td.vassal_addresses ++
            [titleKeyT 64] }),
        Event.createAccount (titleKeyT 64) TitleData.SIZE,
        Event.writeAccount (titleKeyT 64) (serializeTitle (mkNewTitleData 3
          1 1000 [] [] houseKeyT liegeKeyT 64))], none) ∧
    ({ liege64Td with vassal_addresses := liege64Td.vassal_addresses ++
      [titleKeyT 64] } : TitleData).vassal_addresses.length =
      MAX_VASSALS + 1 := by
  have hv64 : ValidTitle liege64Td := by
    refine ⟨by decide, by decide, by decide, ?_⟩
    intro p hp
    simp only [liege64Td, List.mem_replicate] at hp
    rw [hp.2]
    decide
  have hv65 : ValidTitle { liege64Td with
      vassal_addresses := liege64Td.vassal_addresses ++ [titleKeyT 64] } := by
    refine ⟨by decide, by decide, by decide, ?_⟩
    intro p hp
    simp only [liege64Td] at hp
    rcases List.mem_append.mp hp with hp | hp
    · rw [(List.mem_replicate.mp hp).2]
      decide
    · rw [List.mem_singleton.mp hp]
      decide
  have htd : deserializeTitle liege64Acc.data =
      some (liege64Td, List.replicate 248 0) :=
    deserializeTitle_serializeTitle liege64Td hv64 (List.replicate 248 0)
  have hlen64 : (serializeTitle liege64Td).length = 2177 := by
    rw [serializeTitle_length liege64Td hv64]
    simp [liege64Td]
  have hlen65 : (serializeTitle { liege64Td with
      vassal_addresses := liege64Td.vassal_addresses ++
        [titleKeyT 64] }).length = 2209 := by
    rw [serializeTitle_length _ hv65]
    simp [liege64Td]
  have hfitL : (serializeTitle { liege64Td with
      vassal_addresses := liege64Td.vassal_addresses ++
        [(newTitleT 64).key] }).length ≤ liege64Acc.data.length := by
    show _ ≤ (serializeTitle liege64Td ++ List.replicate 248 0).length
    rw [List.length_append, hlen64]
    rw [show ((newTitleT 64).key : Pubkey) = titleKeyT 64 from rfl, hlen65]
    simp
  refine ⟨by simp [liege64Td, MAX_VASSALS], ?_, by simp [liege64Td,
    MAX_VASSALS]⟩
  rw [processCreateTitle_liege_reach fpaTest pidTest walletT houseT
    (newTitleT 64) liege64Acc sysT [] 3 1 1000 [] [] liegeKeyT 64 true rfl
    rfl rfl rfl rfl (by omega) (by omega) (by omega) (by omega) (by decide)
    rfl rfl]
  exact createTitleLiegeBranch_success houseT (newTitleT 64) liege64Acc 3 1
    1000 [] [] 64 liege64Td (List.replicate 248 0) htd rfl
    (by simp [liege64Td]) (by decide) hfitL (by decide)

/-- C9 counterexample: the account supplied in the system-allocator
position has a key different from the system program's identity, yet
`CreateHouse` succeeds — the processor never compares that account
against the system allocator (it checks the wallet's owner instead). -/
theorem createHouse_ignores_allocator_account :
    sysT.key ≠ systemProgramId ∧
    processCreateHouse fpaTest pidTest [walletT, houseT, sysT] [] [] true =
      ([Event.createAccount houseKeyT HouseData.SIZE,
        Event.writeAccount houseKeyT (serializeHouse (mkHouseData [] []))],
        none) := by
  constructor
  · decide
  · simp only [processCreateHouse]
    rw [if_neg (by decide)]
    rw [if_neg (by decide)]
    rw [if_neg (by decide)]
    rw [if_neg (fun hx => hx rfl)]
    rw [if_neg (by simp)]
    rw [if_pos (by decide)]
    rfl

/-! ## Witnesses -/

theorem createTitle_invalid_seeds_witness :
    (fpaTest [walletT.key] pidTest).1 ≠ houseBadT.key ∧
    processCreateTitle fpaTest pidTest
      [walletT, houseBadT, newTitleT 0, liegeAccT, sysT] 1 1 5 [] []
      zeroPubkey 0 true = ([], some ProgErr.InvalidSeeds) :=
  ⟨by decide, (createTitle_invalid_seeds fpaTest pidTest walletT houseBadT
    (newTitleT 0) liegeAccT sysT [] 1 1 5 [] [] zeroPubkey 0 true rfl rfl
    rfl (Or.inr rfl) rfl (by omega) (by omega) (by omega) (by omega)
    (by decide)).1 (by decide)⟩

theorem createTitle_vassal_index_witness :
    liegeTdT.vassal_addresses.length = 0 ∧
    processCreateTitle fpaTest pidTest
      [walletT, houseT, newTitleT 0, liegeAccT, sysT] 3 1 5 [] [] liegeKeyT
      0 true =
      ([Event.writeAccount liegeKeyT (serializeTitle { liegeTdT with
          vassal_addresses := liegeTdT.vassal_addresses ++ [titleKeyT 0] }),
        Event.createAccount (titleKeyT 0) TitleData.SIZE,
        Event.writeAccount (titleKeyT 0) (serializeTitle (mkNewTitleData 3 1
          5 [] [] houseKeyT liegeKeyT 0))], none) ∧
    ({ liegeTdT with vassal_addresses := liegeTdT.vassal_addresses ++
      [titleKeyT 0] } : TitleData).vassal_addresses.getLast? =
      some (titleKeyT 0) := by
  have hmain := (createTitle_vassal_index fpaTest pidTest walletT houseT
    (newTitleT 0) liegeAccT sysT [] 3 1 5 [] [] liegeKeyT 0 true liegeTdT
    (List.replicate 100 0) rfl rfl rfl rfl rfl (by omega) (by omega)
    (by omega) (by omega) (by decide) rfl rfl
    (deserializeTitle_serializeTitle liegeTdT (by decide)
      (List.replicate 100 0)) rfl).2 rfl (by decide) (by decide) rfl
    (by decide)
  exact ⟨rfl, hmain.1, hmain.2.2⟩

theorem createTitle_rank_liege_sentinel_witness :
    processCreateTitle fpaTest pidTest
      [walletT, houseT, newTitleT 0, liegeAccT, sysT] 1 1 5 [] []
      zeroPubkey 0 true =
      ([Event.createAccount (titleKeyT 0) TitleData.SIZE,
        Event.writeAccount (titleKeyT 0) (serializeTitle (mkNewTitleData 1
          1 5 [] [] houseKeyT liegeKeyT 0))], none) :=
  (createTitle_rank_liege_sentinel fpaTest pidTest walletT houseT
    (newTitleT 0) liegeAccT sysT [] 1 1 5 [] [] zeroPubkey 0 true rfl rfl
    rfl (Or.inr rfl) rfl (by omega) (by omega) (by omega) (by omega)).2.2
    rfl rfl rfl rfl rfl (by decide)

theorem createTitle_authority_mismatch_witness :
    liegeBadTd.holder_house_address ≠ houseT.key ∧
    processCreateTitle fpaTest pidTest
      [walletT, houseT, newTitleT 0, liegeBadAcc, sysT] 3 1 5 [] []
      liegeKeyT 0 true = ([], some incorrectAuthorityErr) :=
  ⟨by decide, createTitle_authority_mismatch fpaTest pidTest walletT houseT
    (newTitleT 0) liegeBadAcc sysT [] 3 1 5 [] [] liegeKeyT 0 true
    liegeBadTd (List.replicate 100 0) rfl rfl rfl rfl rfl (by omega)
    (by omega) (by omega) (by omega) (by decide) rfl rfl
    (deserializeTitle_serializeTitle liegeBadTd (by decide)
      (List.replicate 100 0)) (by decide)⟩

theorem createTitle_rank_strictly_increases_witness :
    liegeHighTd.rank ≥ 3 ∧
    processCreateTitle fpaTest pidTest
      [walletT, houseT, newTitleT 0, liegeHighAcc, sysT] 3 1 5 [] []
      liegeKeyT 0 true = ([], some ProgErr.InvalidArgument) :=
  ⟨by decide, (createTitle_rank_strictly_increases fpaTest pidTest walletT
    houseT (newTitleT 0) liegeHighAcc sysT [] 3 1 5 [] [] liegeKeyT 0 true
    liegeHighTd (List.replicate 100 0)
    (deserializeTitle_serializeTitle liegeHighTd (by decide)
      (List.replicate 100 0))).1 rfl rfl rfl rfl rfl (by omega) (by omega)
    (by omega) (by omega) (by decide) rfl rfl rfl rfl (by decide)⟩

theorem create_no_effect_on_validation_failure_witness :
    ∃ d, [Event.writeAccount liegeKeyT (serializeTitle { liegeTdT with
      vassal_addresses := liegeTdT.vassal_addresses ++ [titleKeyT 0] })] =
      [Event.writeAccount liegeAccT.key d] := by
  have htd : deserializeTitle liegeAccT.data =
      some (liegeTdT, List.replicate 100 0) :=
    deserializeTitle_serializeTitle liegeTdT (by decide)
      (List.replicate 100 0)
  have hrun : processCreateTitle fpaTest pidTest
      [walletT, houseT, newTitleT 0, liegeAccT, sysT] 3 1 5 [] [] liegeKeyT
      0 false =
      ([Event.writeAccount liegeKeyT (serializeTitle { liegeTdT with
        vassal_addresses := liegeTdT.vassal_addresses ++ [titleKeyT 0] })],
        some ProgErr.AllocFailed) := by
    rw [processCreateTitle_liege_reach fpaTest pidTest walletT houseT
      (newTitleT 0) liegeAccT sysT [] 3 1 5 [] [] liegeKeyT 0 false rfl rfl
      rfl rfl rfl (by omega) (by omega) (by omega) (by omega) (by decide)
      rfl rfl]
    rw [createTitleLiegeBranch, htd]
    dsimp only
    rw [if_neg (fun hx => hx rfl)]
    rw [if_neg (fun hx => hx rfl)]
    rw [if_neg (by decide)]
    rw [if_pos (by decide)]
    rw [createTitleFinish, if_pos rfl]
    rfl
  exact (create_no_effect_on_validation_failure fpaTest pidTest).2.2.1
    walletT houseT (newTitleT 0) liegeAccT sysT [] 3 1 5 [] [] liegeKeyT 0
    false _ (by omega) hrun

theorem createTitle_liege_key_provenance_witness :
    (fpaTest [liegeAccT.key, List.replicate 32 0] pidTest).1 =
      (newTitleT 0).key ∧
    (∃ evs, (processCreateTitle fpaTest pidTest
      [walletT, houseT, newTitleT 0, liegeAccT, sysT] 1 1 5 [] []
      zeroPubkey 0 true).1 = evs ++
        [Event.createAccount (newTitleT 0).key TitleData.SIZE,
         Event.writeAccount (newTitleT 0).key (serializeTitle
           (mkNewTitleData 1 1 5 [] [] houseT.key liegeAccT.key 0))]) ∧
    (mkNewTitleData 1 1 5 [] [] houseT.key liegeAccT.key 0).liege_address =
      liegeAccT.key ∧
    (zeroPubkey ≠ liegeAccT.key →
      (mkNewTitleData 1 1 5 [] [] houseT.key liegeAccT.key
        0).liege_address ≠ zeroPubkey) := by
  have hfit : (serializeTitle (mkNewTitleData 1 1 5 [] [] houseT.key
      liegeAccT.key 0)).length ≤ TitleData.SIZE := by decide
  have hok : (processCreateTitle fpaTest pidTest
      [walletT, houseT, newTitleT 0, liegeAccT, sysT] 1 1 5 [] []
      zeroPubkey 0 true).2 = none := by
    rw [processCreateTitle_checks fpaTest pidTest walletT houseT
      (newTitleT 0) liegeAccT sysT [] 1 1 5 [] [] zeroPubkey 0 true rfl rfl
      rfl (Or.inr rfl) rfl (by omega) (by omega) (by omega) (by omega)
      (by decide)]
    rw [createTitleAfterChecks]
    rw [if_neg (fun hx => hx rfl)]
    rw [if_neg (fun hx => hx rfl)]
    rw [if_neg (by omega)]
    simp [createTitleFinish, hfit]
  exact createTitle_liege_key_provenance fpaTest pidTest walletT houseT
    (newTitleT 0) liegeAccT sysT [] 1 1 5 [] [] zeroPubkey 0 true hok

theorem create_checks_wallet_owner_witness :
    walletBadOwnerT.owner ≠ systemProgramId ∧
    processCreateHouse fpaTest pidTest [walletBadOwnerT, houseT, sysT] [] []
      true = ([], some ProgErr.IncorrectProgramId) :=
  ⟨by decide, (create_checks_wallet_owner fpaTest pidTest).1
    walletBadOwnerT houseT sysT [] [] [] true rfl rfl rfl (by decide)⟩

end NobleDao
